import Mathlib

/-!
Verification of the h2c HTTP/2 client connection engine
(src/main.go, package connection; src/http2client/http2client.go).

Shallow embedding: each Lean definition mirrors one Go function of the
source. Go `uint32`/`uint64` arithmetic is Nat with explicit `% 2 ^ 32` /
`% 2 ^ 64` where overflow can matter; Go `int64` values are Int (the ranges
exercised stay far from 2^63); fallible or panicking code returns Option.
Frames and some constructors live in the `frames` package, which is not part
of the two source files; those carriers are modelled from the spec and are
marked as such in their doc comments.
-/

namespace H2c

/-- Modelled from the spec: the frame variants of the `frames` package (the
package itself is not under src/). One constructor per wire frame type used
by the connection engine; each carries the fields the engine reads. The
SETTINGS variant models `IsSet`/`Get` of the two settings the engine handles
as Option payload fields, plus the ACK flag and the wire payload length. -/
inductive Frame where
  | data (streamId : Nat) (payload : List Nat) (endStream : Bool)
  | headers (streamId : Nat) (endStream : Bool)
  | settings (streamId : Nat) (ack : Bool) (payloadLength : Nat)
      (maxFrameSize : Option Nat) (initialWindowSize : Option Nat)
  | ping (streamId : Nat) (payload : Nat) (ack : Bool)
  | windowUpdate (streamId : Nat) (increment : Nat)
  | goaway (streamId : Nat)
  | pushPromise (streamId : Nat) (promisedStreamId : Nat)
  | rstStream (streamId : Nat) (errorCode : Nat)
  deriving DecidableEq

/-- Go method GetStreamId of the frames package: the stream id field shared
by all frame variants. -/
def GetStreamId : Frame → Nat
  | .data sid _ _ => sid
  | .headers sid _ => sid
  | .settings sid _ _ _ _ => sid
  | .ping sid _ _ => sid
  | .windowUpdate sid _ => sid
  | .goaway sid => sid
  | .pushPromise sid _ => sid
  | .rstStream sid _ => sid

/-- Payload of a DATA frame; empty for the other variants. -/
def framePayload : Frame → List Nat
  | .data _ payload _ => payload
  | _ => []

/-- END_STREAM flag of a DATA or HEADERS frame; false for the other variants. -/
def frameEndStream : Frame → Bool
  | .data _ _ endStream => endStream
  | .headers _ endStream => endStream
  | _ => false

/-- Error code PROTOCOL_ERROR of the frames package (RFC 7540 value 1). -/
def PROTOCOL_ERROR : Nat := 1

/-- Error code FRAME_SIZE_ERROR of the frames package (RFC 7540 value 6). -/
def FRAME_SIZE_ERROR : Nat := 6

/-! ## C1: client stream id allocation (`newStream` and `max`, src/main.go) -/

/-- Go function max from src/main.go: 0 on a nil or empty slice, otherwise a
scan starting from the first element, replacing it by every larger element. -/
def maxGo (numbers : List Nat) : Nat :=
  match numbers with
  | [] => 0
  | first :: _ => numbers.foldl (fun result n => if n > result then n else result) first

/-- The stream-id computation of Go method newStream from src/main.go,
parameterized by the keys of the `streams` map in iteration order. The Go
code pre-sizes the scan slice with `make([]uint32, len(c.streams))` — that
is, `len(streams)` zero entries — and then appends the odd ids to it; the
next id is `max(slice) + 2` (uint32 arithmetic) when the slice is non-empty,
else 1. -/
def newStreamId (streamIds : List Nat) : Nat :=
  let streamIdsInUse :=
    List.replicate streamIds.length 0 ++ streamIds.filter (fun id => id % 2 == 1)
  if streamIdsInUse.length > 0 then (maxGo streamIdsInUse + 2) % 2 ^ 32 else 1

/-! ## C2: connection-level flow-control counters (src/main.go) -/

/-- The two flow-control counters of the `connection` struct (src/main.go),
both Go int64; the values exercised here are far from overflow, so Int. -/
structure FlowControl where
  remainingSendWindowSize : Int
  remainingReceiveWindowSize : Int
  deriving DecidableEq

/-- Go method RemainingFlowControlWindowIsEnough from src/main.go. Note that
the source compares against `remainingReceiveWindowSize`. -/
def RemainingFlowControlWindowIsEnough (c : FlowControl) (nBytesToWrite : Int) : Bool :=
  c.remainingReceiveWindowSize > nBytesToWrite

/-- Go method DecreaseFlowControlWindow from src/main.go. -/
def DecreaseFlowControlWindow (c : FlowControl) (nBytesToWrite : Int) : FlowControl :=
  { c with remainingSendWindowSize := c.remainingSendWindowSize - nBytesToWrite }

/-- Go method increaseFlowControlWindow from src/main.go. -/
def increaseFlowControlWindow (c : FlowControl) (nBytes : Int) : FlowControl :=
  { c with remainingSendWindowSize := c.remainingSendWindowSize + nBytes }

/-! ## Connection-scoped dispatch (src/main.go): settings, ping, window
update, goaway, and the connectionError stub. Used by C4, C5, C9. -/

/-- The `settings` struct of the `connection` (src/main.go). -/
structure Settings where
  serverFrameSize : Nat
  initialSendWindowSizeForNewStreams : Nat
  initialReceiveWindowSizeForNewStreams : Nat
  deriving DecidableEq

/-- The initial settings of Go function newConnection (src/main.go):
serverFrameSize 2<<13 = 16384, both initial window sizes 2<<15 - 1 = 65535. -/
def initialSettings : Settings :=
  { serverFrameSize := 2 <<< 13
    initialSendWindowSizeForNewStreams := 2 <<< 15 - 1
    initialReceiveWindowSizeForNewStreams := 2 <<< 15 - 1 }

/-- Go method handleSettingsFrame from src/main.go (a method on `settings`):
applies SETTINGS_MAX_FRAME_SIZE and SETTINGS_INITIAL_WINDOW_SIZE when
present, and nothing else — the ACK-related behaviour only exists as TODO
comments in the source. -/
def handleSettingsFrame (s : Settings) (maxFrameSize initialWindowSize : Option Nat) :
    Settings :=
  let s1 :=
    match maxFrameSize with
    | some v => { s with serverFrameSize := v }
    | none => s
  match initialWindowSize with
  | some v => { s1 with initialSendWindowSizeForNewStreams := v }
  | none => s1

/-- The fields of the `connection` struct read or written by the
connection-scoped handlers of src/main.go. Pending ping requests are a map
from the 8-byte opaque payload to the submitted request, here identified by
an opaque Nat token. -/
structure ConnState where
  settings : Settings
  nextPingId : Nat
  pendingPingRequests : Nat → Option Nat
  remainingSendWindowSize : Int
  isShutdown : Bool

/-- Observable effects of one connection-scoped dispatch: frames handed to
`c.Write`, ping requests completed successfully, error codes passed to
`connectionError`, whether `conn.Close()` ran, and whether
`ProcessPendingDataFrames` was invoked on every stream (the stream package
is not under src/, so the drain itself is recorded as a flag). -/
structure Effects where
  writes : List Frame
  completedPings : List Nat
  loggedErrors : List Nat
  transportClosed : Bool
  drainedAllStreams : Bool
  deriving DecidableEq

/-- No observable effect. -/
def noEffects : Effects :=
  { writes := [], completedPings := [], loggedErrors := [],
    transportClosed := false, drainedAllStreams := false }

/-- Go method connectionError from src/main.go: the body is a TODO — it only
prints the message and error code to stderr. No GOAWAY frame is written,
nothing is shut down, no transport close, no command is failed. -/
def connectionError (c : ConnState) (errorCode : Nat) : ConnState × Effects :=
  (c, { noEffects with loggedErrors := [errorCode] })

/-- Go method Shutdown from src/main.go: set the shutdown flag and close the
transport. -/
def ShutdownConn (c : ConnState) : ConnState × Effects :=
  ({ c with isShutdown := true }, { noEffects with transportClosed := true })

/-- Go method handleFrameForConnection from src/main.go: type switch over the
frame. SETTINGS goes to the settings handler (no write, no error); PING with
ACK resolves a matching pending ping, deleting it, and ignores a
non-matching one; PING without ACK is echoed with the identical payload and
ACK=true; WINDOW_UPDATE adds the increment to the connection send window
(handleWindowUpdateFrame / increaseFlowControlWindow) and re-drains every
stream's pending DATA queue; GOAWAY shuts the connection down; every other
frame type on stream 0 is a PROTOCOL_ERROR handed to connectionError. -/
def handleFrameForConnection (c : ConnState) (frame : Frame) : ConnState × Effects :=
  match frame with
  | .settings _ _ _ maxFrameSize initialWindowSize =>
      ({ c with settings := handleSettingsFrame c.settings maxFrameSize initialWindowSize },
       noEffects)
  | .ping _ payload ack =>
      if ack then
        match c.pendingPingRequests payload with
        | some pendingPingRequest =>
            ({ c with pendingPingRequests := fun p =>
                 if p = payload then none else c.pendingPingRequests p },
             { noEffects with completedPings := [pendingPingRequest] })
        | none => (c, noEffects)
      else
        (c, { noEffects with writes := [Frame.ping 0 payload true] })
  | .windowUpdate _ increment =>
      ({ c with remainingSendWindowSize := c.remainingSendWindowSize + increment },
       { noEffects with drainedAllStreams := true })
  | .goaway _ => ShutdownConn c
  | _ => connectionError c PROTOCOL_ERROR

/-- Go method HandlePingRequest from src/main.go: build a PING frame with
ACK=false whose payload is the current `nextPingId` (a uint64 counter, hence
the `% 2 ^ 64` on the increment), record the pending request under that
payload, and write the frame. -/
def HandlePingRequest (c : ConnState) (request : Nat) : ConnState × Effects :=
  let payload := c.nextPingId
  ({ c with
      nextPingId := (c.nextPingId + 1) % 2 ^ 64
      pendingPingRequests := fun p =>
        if p = payload then some request else c.pendingPingRequests p },
   { noEffects with writes := [Frame.ping 0 payload false] })

/-! ## Theorems for C1 and C2 -/

/-- C1: the claim states that client-initiated stream ids form a strictly
increasing odd sequence starting at 1 even when even-numbered
server-initiated streams are already in the streams map. The code violates
this: with exactly one server-initiated stream (even id 2, as created for a
received PUSH_PROMISE) in the map, the pre-sized scan slice is the non-empty
`[0]`, so `newStream` computes the next client stream id as `max [0] + 2 = 2`
— an even id that collides with the existing stream, contradicting both the
claim and the source's own comment that client streams must use odd ids. -/
theorem c1_newStreamId_even_when_even_stream_present :
    newStreamId [2] = 2 ∧ newStreamId [2] % 2 = 0 := by decide

/-- C2: the claim states that the sufficiency check reads the same
connection-level send-window counter that DecreaseFlowControlWindow
decrements. The code violates this: with send window 0 and receive window
65535, RemainingFlowControlWindowIsEnough 100 returns true (it reads
`remainingReceiveWindowSize`), yet emitting would drive the send window —
the counter DecreaseFlowControlWindow actually decrements — to -100 < 0. -/
theorem c2_sufficiency_check_reads_receive_window :
    RemainingFlowControlWindowIsEnough ⟨0, 65535⟩ 100 = true ∧
    (DecreaseFlowControlWindow ⟨0, 65535⟩ 100).remainingSendWindowSize = -100 ∧
    ((-100 : Int) < 0) := by decide

/-! ## Theorems for C4, C5, C9 -/

/-- A connection state as set up by Go function newConnection: fresh settings,
ping counter 0, no pending pings, send window 65535, not shut down. -/
def dispatchStateExample : ConnState :=
  { settings := initialSettings
    nextPingId := 0
    pendingPingRequests := fun _ => none
    remainingSendWindowSize := 2 <<< 15 - 1
    isShutdown := false }

/-- C4: the claim states that a non-ACK SETTINGS frame updates the local view
of the peer settings and is answered by a SETTINGS frame with ACK=true, and
that an ACK-flagged SETTINGS frame with non-zero payload length raises a
FRAME_SIZE_ERROR connection error. The code only does the first part: the
update of serverFrameSize and initialSendWindowSizeForNewStreams happens, but
no frame is written in response (no effect at all), and an ACK-flagged
SETTINGS frame with payload length 6 is processed with no error either —
both behaviours exist only as TODO comments in the source. -/
theorem c4_settings_ack_missing :
    (handleFrameForConnection dispatchStateExample
        (Frame.settings 0 false 12 (some 4) (some 70000))).1.settings =
      { serverFrameSize := 4
        initialSendWindowSizeForNewStreams := 70000
        initialReceiveWindowSizeForNewStreams := 2 <<< 15 - 1 } ∧
    (handleFrameForConnection dispatchStateExample
        (Frame.settings 0 false 12 (some 4) (some 70000))).2 = noEffects ∧
    (handleFrameForConnection dispatchStateExample
        (Frame.settings 0 true 6 none none)).2 = noEffects :=
  ⟨rfl, rfl, rfl⟩

/-- C5: the claim states that on a connection-fatal error (for example a
HEADERS frame arriving with stream id 0) the engine sends a GOAWAY frame,
closes the transport, and fails all outstanding commands. The code's
connectionError is a TODO stub that only logs: dispatching a HEADERS frame
with stream id 0 leaves the state untouched (in particular not shut down),
writes no frame, closes nothing, and merely records a PROTOCOL_ERROR log
line. -/
theorem c5_connection_error_only_logged :
    (handleFrameForConnection dispatchStateExample (Frame.headers 0 false)).1 =
      dispatchStateExample ∧
    (handleFrameForConnection dispatchStateExample (Frame.headers 0 false)).2 =
      { noEffects with loggedErrors := [PROTOCOL_ERROR] } ∧
    (handleFrameForConnection dispatchStateExample (Frame.headers 0 false)).1.isShutdown
      = false :=
  ⟨rfl, rfl, rfl⟩

/-- A uint64 counter value never equals its wrapped successor. -/
lemma nextPingId_succ_ne (n : Nat) : n ≠ (n + 1) % 2 ^ 64 := by
  intro h
  rcases Nat.lt_or_ge (n + 1) (2 ^ 64) with hlt | hge
  · rw [Nat.mod_eq_of_lt hlt] at h
    omega
  · have hn : n < 2 ^ 64 := by
      rw [h]
      exact Nat.mod_lt _ (by positivity)
    have h1 : n + 1 = 2 ^ 64 := by omega
    rw [h1, Nat.mod_self] at h
    omega

/-- C9: a PING with ACK=false is echoed back with the identical payload and
ACK=true; a PING ACK matching a pending commitment completes exactly that
commitment and removes it (so a duplicate ACK with the same payload resolves
nothing, and other commitments are untouched); an ACK matching no commitment
is ignored; client PING payloads come from the uint64 counter nextPingId, so
two consecutive HandlePingRequest calls write frames with distinct payloads
and record the pending request under the payload used. -/
theorem c9_ping_correlation (c : ConnState) (p r request1 request2 : Nat) :
    handleFrameForConnection c (Frame.ping 0 p false) =
      (c, { noEffects with writes := [Frame.ping 0 p true] }) ∧
    (c.pendingPingRequests p = some r →
      (handleFrameForConnection c (Frame.ping 0 p true)).2.completedPings = [r] ∧
      (handleFrameForConnection c (Frame.ping 0 p true)).2.writes = [] ∧
      (handleFrameForConnection c (Frame.ping 0 p true)).1.pendingPingRequests p = none ∧
      (∀ q, q ≠ p →
        (handleFrameForConnection c (Frame.ping 0 p true)).1.pendingPingRequests q =
          c.pendingPingRequests q) ∧
      handleFrameForConnection (handleFrameForConnection c (Frame.ping 0 p true)).1
          (Frame.ping 0 p true) =
        ((handleFrameForConnection c (Frame.ping 0 p true)).1, noEffects)) ∧
    (c.pendingPingRequests p = none →
      handleFrameForConnection c (Frame.ping 0 p true) = (c, noEffects)) ∧
    ((HandlePingRequest c request1).2.writes = [Frame.ping 0 c.nextPingId false] ∧
      (HandlePingRequest (HandlePingRequest c request1).1 request2).2.writes =
        [Frame.ping 0 ((c.nextPingId + 1) % 2 ^ 64) false] ∧
      c.nextPingId ≠ (c.nextPingId + 1) % 2 ^ 64 ∧
      (HandlePingRequest c request1).1.pendingPingRequests c.nextPingId = some request1) := by
  refine ⟨rfl, ?_, ?_, rfl, rfl, nextPingId_succ_ne c.nextPingId, by simp [HandlePingRequest]⟩
  · intro h
    refine ⟨by simp [handleFrameForConnection, h], by simp [handleFrameForConnection, h, noEffects],
      by simp [handleFrameForConnection, h], ?_, ?_⟩
    · intro q hq
      simp [handleFrameForConnection, h, hq]
    · simp [handleFrameForConnection, h]
  · intro h
    simp [handleFrameForConnection, h]

/-- A connection state with one pending ping (payload 5, request token 77)
and ping counter 3. -/
def pingStateExample : ConnState :=
  { settings := initialSettings
    nextPingId := 3
    pendingPingRequests := fun p => if p = 5 then some 77 else none
    remainingSendWindowSize := 2 <<< 15 - 1
    isShutdown := false }

/-- Witness for C9 at a concrete state: the matched ACK for payload 5
completes request 77 and removes the commitment, a non-ACK PING with payload
9 is echoed, and HandlePingRequest writes the counter payload 3. -/
theorem c9_ping_correlation_witness :
    (handleFrameForConnection pingStateExample (Frame.ping 0 5 true)).2.completedPings
      = [77] ∧
    (handleFrameForConnection pingStateExample (Frame.ping 0 5 true)).1.pendingPingRequests 5
      = none ∧
    handleFrameForConnection pingStateExample (Frame.ping 0 9 false) =
      (pingStateExample, { noEffects with writes := [Frame.ping 0 9 true] }) ∧
    (HandlePingRequest pingStateExample 11).2.writes = [Frame.ping 0 3 false] := by
  obtain ⟨_, hb, _, hd⟩ := c9_ping_correlation pingStateExample 5 77 11 12
  obtain ⟨ha, _, _, _⟩ := c9_ping_correlation pingStateExample 9 77 11 12
  have hp : pingStateExample.pendingPingRequests 5 = some 77 := rfl
  obtain ⟨h1, _, h3, _, _⟩ := hb hp
  exact ⟨h1, h3, ha, hd.1⟩

/-! ## C3: frame filters on the write and read paths (src/main.go) -/

/-- Go method Write from src/main.go, with the frame type and the Encode
method abstracted (the frames package is not under src/). The translation
keeps the statement order of the source exactly: the frame is encoded FIRST
into `encodedFrame`, then the outgoing filters are folded over the local
`frame` variable in registration order, and the bytes handed to
`conn.Write` are `encodedFrame` — computed before any filter ran. The Encode
error path calls os.Exit and is outside the value-level behaviour modelled
here. Returns (bytes written to the transport, final value of the frame
variable). -/
def Write {α : Type} (encode : α → List Nat) (outgoingFrameFilters : List (α → α))
    (frame : α) : List Nat × α :=
  let encodedFrame := encode frame
  let frame := outgoingFrameFilters.foldl (fun f filter => filter f) frame
  (encodedFrame, frame)

/-- Modelled from the spec: frames.DecodeHeader is not under src/; the wire
format puts a 9-byte header before each frame — length:24, type:8, flags:8,
then a reserved bit and a 31-bit stream id. -/
structure FrameHeader where
  length : Nat
  headerType : Nat
  flags : Nat
  streamId : Nat

/-- Modelled from the spec: decoding of the 9-byte frame header (big-endian
fields, reserved bit masked off the stream id). -/
def DecodeHeader (headerData : List Nat) : FrameHeader :=
  { length := headerData.getD 0 0 * 2 ^ 16 + headerData.getD 1 0 * 2 ^ 8 + headerData.getD 2 0
    headerType := headerData.getD 3 0
    flags := headerData.getD 4 0
    streamId := (headerData.getD 5 0 * 2 ^ 24 + headerData.getD 6 0 * 2 ^ 16 +
        headerData.getD 7 0 * 2 ^ 8 + headerData.getD 8 0) % 2 ^ 31 }

/-- Go method ReadNextFrame from src/main.go, with the frame type, the
decoder table (frames.FindDecoder) and the decoding context abstracted. The
input byte list stands for the transport stream; a short read, an unknown
frame type, or a decode error all surface as `none` to the caller (the
reader hands the frame on only when err == nil). After the payload is
decoded, the incoming filters are folded over the frame in registration
order, exactly as in the source, and the result is returned. -/
def ReadNextFrame {α : Type}
    (findDecoder : Nat → Option (Nat → Nat → List Nat → Option α))
    (incomingFrameFilters : List (α → α)) (input : List Nat) : Option α :=
  if input.length < 9 then none
  else
    let header := DecodeHeader (input.take 9)
    let rest := input.drop 9
    if rest.length < header.length then none
    else
      let payload := rest.take header.length
      match findDecoder header.headerType with
      | none => none
      | some decodeFunc =>
        match decodeFunc header.flags header.streamId payload with
        | none => none
        | some frame =>
          some (incomingFrameFilters.foldl (fun f filter => filter f) frame)

/-- C3: the claim states that outgoing filters run before the frame is
encoded, so the bytes on the wire are the encoding of the filtered frame.
The code violates this: with the injective encoding n ↦ [n] and a single
registered filter substituting frame 42, writing frame 7 puts [7] — the
encoding of the ORIGINAL frame — on the wire, not [42], even though the
filter did run (the frame variable ends up as 42). The incoming half of the
claim does hold: a decoded frame is passed through the registered filters in
registration order before reaching the caller, as the concrete read of a
1-byte type-0 frame with payload byte 7 through the filter n ↦ n + 1
returning 8 shows. -/
theorem c3_outgoing_filters_run_after_encoding :
    Write (fun n => [n]) [fun _ => 42] 7 = ([7], 42) ∧
    (Write (fun n => [n]) [fun _ => 42] 7).1 ≠ [42] ∧
    ReadNextFrame
      (fun t => if t = 0 then some (fun _ _ payload => some (payload.getD 0 0)) else none)
      [fun n => n + 1] [0, 0, 1, 0, 0, 0, 0, 0, 0, 7] = some 8 := by
  refine ⟨rfl, by decide, rfl⟩

/-! ## C8: push-promise cache adoption (src/main.go) -/

/-- The push-promise cache and the streams map of the `connection` struct as
used by handleGetRequest (src/main.go): the cache maps a promised `:path` to
the promised stream id, and streams are represented by their ids, with
membership in the streams map as a Bool-valued predicate (a Go map read of a
missing key yields a nil stream). -/
structure PushPromiseState where
  promisedStreamIDs : String → Option Nat
  streams : Nat → Bool

/-- Go method findStreamCreatedWithPushPromise from src/main.go: on a cache
hit the entry is deleted and the streams map is consulted (`c.streams[id]`,
which is nil — here `none` — when the promised stream is no longer in the
map); on a miss nothing changes and nil is returned. Returns the found
stream and the updated state. -/
def findStreamCreatedWithPushPromise (c : PushPromiseState) (path : String) :
    Option Nat × PushPromiseState :=
  match c.promisedStreamIDs path with
  | some streamId =>
      (if c.streams streamId then some streamId else none,
       { c with promisedStreamIDs := fun p =>
           if p = path then none else c.promisedStreamIDs p })
  | none => (none, c)

/-- The two branches of Go method handleGetRequest (src/main.go): when the
push-promise lookup yields a stream, the request is associated with it (no
new stream, no HEADERS frame — "Don't need to send request" in the source;
an association error only fails the request); otherwise control falls
through to doRequest, which allocates a new client stream and emits
HEADERS. -/
inductive GetAction where
  | adoptPromisedStream (streamId : Nat)
  | doRequest
  deriving DecidableEq

/-- Go method handleGetRequest from src/main.go: probe the push-promise
cache first; adopt the promised stream when one is found, otherwise
doRequest. -/
def handleGetRequest (c : PushPromiseState) (path : String) : GetAction × PushPromiseState :=
  match findStreamCreatedWithPushPromise c path with
  | (some streamId, c1) => (GetAction.adoptPromisedStream streamId, c1)
  | (none, c1) => (GetAction.doRequest, c1)

/-- C8: when the cache maps path P to stream sid and sid is in the streams
map, a GET for P adopts the promised stream (no new stream, no HEADERS), the
cache entry for P is removed while other entries and the streams map are
untouched, and a second GET for P on the resulting state falls through to
doRequest, which allocates a fresh client stream — each cache entry is
consumed at most once. -/
theorem c8_push_promise_adopted_once (c : PushPromiseState) (path : String) (sid : Nat)
    (hcache : c.promisedStreamIDs path = some sid) (hstream : c.streams sid = true) :
    (handleGetRequest c path).1 = GetAction.adoptPromisedStream sid ∧
    (handleGetRequest c path).2.promisedStreamIDs path = none ∧
    (∀ q, q ≠ path → (handleGetRequest c path).2.promisedStreamIDs q =
      c.promisedStreamIDs q) ∧
    (handleGetRequest c path).2.streams = c.streams ∧
    (handleGetRequest (handleGetRequest c path).2 path).1 = GetAction.doRequest := by
  refine ⟨?_, ?_, ?_, ?_, ?_⟩
  · simp [handleGetRequest, findStreamCreatedWithPushPromise, hcache, hstream]
  · simp [handleGetRequest, findStreamCreatedWithPushPromise, hcache, hstream]
  · intro q hq
    simp [handleGetRequest, findStreamCreatedWithPushPromise, hcache, hstream, hq]
  · simp [handleGetRequest, findStreamCreatedWithPushPromise, hcache, hstream]
  · simp [handleGetRequest, findStreamCreatedWithPushPromise, hcache, hstream]

/-- A state with one cached push promise: path "/style.css" promised on
stream 2, and stream 2 present in the streams map. -/
def pushStateExample : PushPromiseState :=
  { promisedStreamIDs := fun p => if p = "/style.css" then some 2 else none
    streams := fun s => s == 2 }

/-- Witness for C8 at a concrete state: the first GET for "/style.css"
adopts promised stream 2 and empties the cache entry; the second falls
through to doRequest. -/
theorem c8_push_promise_adopted_once_witness :
    pushStateExample.promisedStreamIDs "/style.css" = some 2 ∧
    pushStateExample.streams 2 = true ∧
    (handleGetRequest pushStateExample "/style.css").1 = GetAction.adoptPromisedStream 2 ∧
    (handleGetRequest pushStateExample "/style.css").2.promisedStreamIDs "/style.css" = none ∧
    (handleGetRequest (handleGetRequest pushStateExample "/style.css").2 "/style.css").1 =
      GetAction.doRequest := by
  obtain ⟨h1, h2, _, _, h5⟩ :=
    c8_push_promise_adopted_once pushStateExample "/style.css" 2 rfl rfl
  exact ⟨rfl, rfl, h1, h2, h5⟩

/-! ## C10: header-name normalization (src/http2client/http2client.go) -/

/-- The trailing-colon loop of Go function normalizeHeaderName
(src/http2client/http2client.go), expressed on the reversed character list:
the Go loop repeatedly tests `name[len(name)-1] == ':'` — the head of the
reverse — and drops that character; testing the last character of an empty
string is the out-of-bounds branch of the indexing operation, `none` here. -/
def stripTrailingColonsRev : List Char → Option (List Char)
  | [] => none
  | c :: rest => if c = ':' then stripTrailingColonsRev rest else some (c :: rest)

/-- Go function normalizeHeaderName from src/http2client/http2client.go:
strip all trailing ':' characters (panicking — `none` — when the string runs
empty or starts empty), then lower-case the rest. -/
def normalizeHeaderName (name : List Char) : Option (List Char) :=
  (stripTrailingColonsRev name.reverse).map (fun rev => rev.reverse.map Char.toLower)

/-- Go method SetHeader from src/http2client/http2client.go: append the
normalized name with the value to customHeaders; `none` when normalization
panics. -/
def SetHeader (customHeaders : List (List Char × String)) (name : List Char)
    (value : String) : Option (List (List Char × String)) :=
  (normalizeHeaderName name).map (fun n => customHeaders ++ [(n, value)])

/-- The reversed trailing-colon loop is `none` exactly on all-colon input and
otherwise drops the leading colons of the reversed list. -/
lemma stripTrailingColonsRev_spec (l : List Char) :
    (stripTrailingColonsRev l = none ↔ ∀ c ∈ l, c = ':') ∧
    ((∃ c ∈ l, c ≠ ':') →
      stripTrailingColonsRev l = some (l.dropWhile (fun c => c = ':'))) := by
  induction l with
  | nil => simp [stripTrailingColonsRev]
  | cons c rest ih =>
    by_cases hc : c = ':'
    · subst hc
      refine ⟨?_, ?_⟩
      · simpa [stripTrailingColonsRev] using ih.1
      · intro hex
        have hex1 : ∃ d ∈ rest, d ≠ ':' := by
          obtain ⟨d, hd, hne⟩ := hex
          rcases List.mem_cons.mp hd with h | h
          · exact absurd h hne
          · exact ⟨d, h, hne⟩
        simpa [stripTrailingColonsRev] using ih.2 hex1
    · refine ⟨?_, ?_⟩
      · simp [stripTrailingColonsRev, hc]
      · intro _
        simp [stripTrailingColonsRev, List.dropWhile_cons, hc]

/-- C10: for a non-empty header name that does not consist solely of ':'
characters, normalizeHeaderName yields the name with all trailing colons
stripped and the rest lower-cased, and SetHeader appends exactly that
normalized name with the value, leaving every previously stored header
unchanged; for the empty name, and for a name consisting only of ':'
characters, the trailing-colon loop reaches the out-of-bounds branch of the
string indexing operation. -/
theorem c10_setHeader_normalization (name : List Char)
    (headers : List (List Char × String)) (value : String) :
    (name ≠ [] → (∃ c ∈ name, c ≠ ':') →
      normalizeHeaderName name =
        some ((name.reverse.dropWhile (fun c => c = ':')).reverse.map Char.toLower) ∧
      SetHeader headers name value =
        some (headers ++
          [((name.reverse.dropWhile (fun c => c = ':')).reverse.map Char.toLower, value)])) ∧
    ((name = [] ∨ ∀ c ∈ name, c = ':') → normalizeHeaderName name = none) := by
  constructor
  · intro _ hex
    have hex1 : ∃ c ∈ name.reverse, c ≠ ':' := by
      obtain ⟨c, hc, hne⟩ := hex
      exact ⟨c, List.mem_reverse.mpr hc, hne⟩
    have h := (stripTrailingColonsRev_spec name.reverse).2 hex1
    constructor
    · simp [normalizeHeaderName, h]
    · simp [SetHeader, normalizeHeaderName, h]
  · rintro (h | h)
    · subst h
      rfl
    · have h1 : ∀ c ∈ name.reverse, c = ':' := by
        intro c hc
        exact h c (List.mem_reverse.mp hc)
      have h2 := (stripTrailingColonsRev_spec name.reverse).1.mpr h1
      simp [normalizeHeaderName, h2]

/-- Witness for C10 at concrete inputs: "CT:" normalizes to "ct" and is
appended after the existing header; the empty name and the all-colon name
"::" reach the out-of-bounds branch. -/
theorem c10_setHeader_normalization_witness :
    normalizeHeaderName ['C', 'T', ':'] = some ['c', 't'] ∧
    SetHeader [(['a'], "1")] ['C', 'T', ':'] "x" =
      some [(['a'], "1"), (['c', 't'], "x")] ∧
    normalizeHeaderName [] = none ∧
    normalizeHeaderName [':', ':'] = none := by
  obtain ⟨h1, h2⟩ := (c10_setHeader_normalization ['C', 'T', ':'] [(['a'], "1")] "x").1
    (by decide) (by decide)
  refine ⟨h1.trans (by decide), h2.trans ?_, ?_, ?_⟩
  · norm_num
    decide
  · exact (c10_setHeader_normalization [] [] "x").2 (Or.inl rfl)
  · exact (c10_setHeader_normalization [':', ':'] [] "x").2 (Or.inr (by decide))

/-! ## C6: outbound DATA fragmentation (`doRequest`, `sendDataFrames`,
src/main.go) -/

/-- Go slice expression data[a:b]: the elements at indices a..b-1 (total
here; all uses below are proven in range). -/
def goSlice (data : List Nat) (a b : Nat) : List Nat := (data.take b).drop a

/-- The loop of Go method sendDataFrames from src/main.go, in uint32
arithmetic (`% 2 ^ 32` on every product and increment). Each iteration with
`nChunksSent*chunkSize < total` slices
`data[nChunksSent*chunkSize : min((nChunksSent+1)*chunkSize, total)]`,
increments the counter, and sends a DATA frame whose END_STREAM flag is
`nChunksSent*chunkSize >= total` for the incremented counter. The Go loop
has no bound of its own (with chunkSize = 0 it never terminates), so the
translation carries explicit fuel and returns `none` when the fuel runs out
before the loop exits. -/
def sendDataFramesLoop (streamId chunkSize total : Nat) (data : List Nat) :
    Nat → Nat → Option (List Frame)
  | 0, _ => none
  | fuel + 1, nChunksSent =>
    if nChunksSent * chunkSize % 2 ^ 32 < total then
      let nextChunk := goSlice data (nChunksSent * chunkSize % 2 ^ 32)
          (min ((nChunksSent + 1) * chunkSize % 2 ^ 32) total)
      let nChunksSent1 := (nChunksSent + 1) % 2 ^ 32
      let isLast := decide (total ≤ nChunksSent1 * chunkSize % 2 ^ 32)
      match sendDataFramesLoop streamId chunkSize total data fuel nChunksSent1 with
      | none => none
      | some rest => some (Frame.data streamId nextChunk isLast :: rest)
    else some []

/-- Go method sendDataFrames from src/main.go: chunkSize is the peer frame
size from the connection settings (read once, before the loop), total is
`uint32(len(data))`, and the counter starts at 0. Fuel `data.length + 1`
suffices for every terminating run with a positive chunk size. -/
def sendDataFrames (s : Settings) (streamId : Nat) (data : List Nat) :
    Option (List Frame) :=
  sendDataFramesLoop streamId s.serverFrameSize (data.length % 2 ^ 32) data
    (data.length + 1) 0

/-- The frame emission of Go method doRequest from src/main.go: a HEADERS
frame whose END_STREAM flag is set iff the request carries no body
(`request.GetData() == nil`), followed by the DATA frames of sendDataFrames
when a body is present. -/
def doRequestFrames (s : Settings) (streamId : Nat) (body : Option (List Nat)) :
    Option (List Frame) :=
  let headersFrame := Frame.headers streamId body.isNone
  match body with
  | none => some [headersFrame]
  | some data =>
    match sendDataFrames s streamId data with
    | none => none
    | some dataFrames => some (headersFrame :: dataFrames)

/-- Once the counter has covered the data, the loop exits at once with no
further frame. -/
lemma sendDataFramesLoop_exit (streamId chunkSize total : Nat) (data : List Nat)
    (fuel n : Nat) (hf : 0 < fuel) (hge : total ≤ n * chunkSize)
    (hlt : n * chunkSize < 2 ^ 32) :
    sendDataFramesLoop streamId chunkSize total data fuel n = some [] := by
  obtain ⟨f, rfl⟩ : ∃ f, fuel = f + 1 := ⟨fuel - 1, by omega⟩
  rw [sendDataFramesLoop, Nat.mod_eq_of_lt hlt, if_neg (Nat.not_lt.mpr hge)]

/-- One looping step of sendDataFramesLoop with all uint32 reductions in
range. -/
lemma sendDataFramesLoop_step (streamId chunkSize total : Nat) (data : List Nat)
    (f n : Nat) (h1 : n * chunkSize < 2 ^ 32) (h2 : n + 1 < 2 ^ 32)
    (h3 : (n + 1) * chunkSize < 2 ^ 32) (hcond : n * chunkSize < total) :
    sendDataFramesLoop streamId chunkSize total data (f + 1) n =
      match sendDataFramesLoop streamId chunkSize total data f (n + 1) with
      | none => none
      | some rest => some (Frame.data streamId
          (goSlice data (n * chunkSize) (min ((n + 1) * chunkSize) total))
          (decide (total ≤ (n + 1) * chunkSize)) :: rest) := by
  rw [sendDataFramesLoop]
  simp only [Nat.mod_eq_of_lt h1, Nat.mod_eq_of_lt h2, Nat.mod_eq_of_lt h3]
  rw [if_pos hcond]

/-- Correctness of the sendDataFrames loop from any reached counter value:
with a positive chunk size and data plus one chunk below 2^32, the loop
terminates within the fuel, its payloads concatenate to the not yet covered
suffix of the data, every frame is a DATA frame on the stream with payload
at most one chunk, and END_STREAM is set on the last frame and only there. -/
lemma sendDataFramesLoop_spec (streamId chunkSize : Nat) (data : List Nat)
    (hcs : 0 < chunkSize) (hbound : data.length + chunkSize < 2 ^ 32) :
    ∀ fuel n, n * chunkSize < data.length → data.length - n * chunkSize < fuel →
    ∃ l, sendDataFramesLoop streamId chunkSize data.length data fuel n = some l ∧
      (l.map framePayload).flatten = data.drop (n * chunkSize) ∧
      (∀ fr ∈ l, ∃ p e, fr = Frame.data streamId p e ∧ p.length ≤ chunkSize) ∧
      l.map frameEndStream = List.replicate (l.length - 1) false ++ [true] := by
  intro fuel
  induction fuel with
  | zero => intro n h1 h2; omega
  | succ f ih =>
    intro n h1 h2
    have hmul : (n + 1) * chunkSize = n * chunkSize + chunkSize := by ring
    have hn1 : n * chunkSize < 2 ^ 32 := by omega
    have hn3 : (n + 1) * chunkSize < 2 ^ 32 := by omega
    have hle : n ≤ n * chunkSize := Nat.le_mul_of_pos_right n hcs
    have hn2 : n + 1 < 2 ^ 32 := by omega
    rw [sendDataFramesLoop_step streamId chunkSize data.length data f n hn1 hn2 hn3 h1]
    by_cases hlast : data.length ≤ (n + 1) * chunkSize
    · have hf0 : 0 < f := by omega
      rw [sendDataFramesLoop_exit streamId chunkSize data.length data f (n + 1) hf0
        hlast hn3]
      refine ⟨[Frame.data streamId
        (goSlice data (n * chunkSize) (min ((n + 1) * chunkSize) data.length))
        (decide (data.length ≤ (n + 1) * chunkSize))], rfl, ?_, ?_, ?_⟩
      · have hmin : min ((n + 1) * chunkSize) data.length = data.length :=
          Nat.min_eq_right hlast
        simp [framePayload, goSlice, hmin, List.take_length]
      · intro fr hfr
        rw [List.mem_singleton] at hfr
        refine ⟨_, _, hfr, ?_⟩
        have : (goSlice data (n * chunkSize)
            (min ((n + 1) * chunkSize) data.length)).length ≤ chunkSize := by
          simp only [goSlice, List.length_drop, List.length_take]
          omega
        exact this
      · simp [frameEndStream, hlast]
    · push_neg at hlast
      have hrec := ih (n + 1) hlast (by omega)
      obtain ⟨rest, hres, hjoin, hframes, hflags⟩ := hrec
      rw [hres]
      refine ⟨Frame.data streamId
        (goSlice data (n * chunkSize) (min ((n + 1) * chunkSize) data.length))
        (decide (data.length ≤ (n + 1) * chunkSize)) :: rest, rfl, ?_, ?_, ?_⟩
      · have hmin : min ((n + 1) * chunkSize) data.length = (n + 1) * chunkSize :=
          Nat.min_eq_left (le_of_lt hlast)
        have hkey : data.drop (n * chunkSize) =
            (data.take ((n + 1) * chunkSize)).drop (n * chunkSize) ++
              data.drop ((n + 1) * chunkSize) := by
          conv_lhs => rw [← List.take_append_drop ((n + 1) * chunkSize) data]
          rw [List.drop_append_eq_append_drop]
          have hlen : (data.take ((n + 1) * chunkSize)).length = (n + 1) * chunkSize := by
            rw [List.length_take]
            omega
          rw [hlen]
          have hz : n * chunkSize - (n + 1) * chunkSize = 0 := by omega
          rw [hz, List.drop_zero]
        simp only [List.map_cons, List.flatten_cons, framePayload, hjoin, goSlice, hmin]
        exact hkey.symm
      · intro fr hfr
        rcases List.mem_cons.mp hfr with h | h
        · refine ⟨_, _, h, ?_⟩
          simp only [goSlice, List.length_drop, List.length_take]
          omega
        · exact hframes fr h
      · have hne : rest ≠ [] := by
          intro h
          rw [h] at hflags
          simp at hflags
        have hlen1 : 1 ≤ rest.length := List.length_pos.mpr hne
        simp only [List.map_cons, frameEndStream, List.length_cons]
        rw [hflags]
        have : decide (data.length ≤ (n + 1) * chunkSize) = false := by
          simp [Nat.not_le.mpr hlast]
        rw [this]
        have hrep : List.replicate (rest.length + 1 - 1) false =
            false :: List.replicate (rest.length - 1) false := by
          have h1 : rest.length + 1 - 1 = (rest.length - 1) + 1 := by omega
          rw [h1, List.replicate_succ]
        rw [hrep]
        simp

/-- C6: for a request with a non-empty body (and a positive peer frame size —
the protocol guarantees MAX_FRAME_SIZE at least 16384 — with body plus one
chunk inside uint32 range), doRequest emits a HEADERS frame with END_STREAM
clear followed by consecutive DATA frames on the request's stream whose
payloads are each at most the peer's current MAX_FRAME_SIZE and concatenate
to exactly the original body, with END_STREAM set on the last frame and only
the last; for a request with no body the HEADERS frame has END_STREAM set
and no DATA frame follows. -/
theorem c6_doRequest_fragmentation (s : Settings) (streamId : Nat) (data : List Nat)
    (hne : data ≠ []) (hcs : 0 < s.serverFrameSize)
    (hbound : data.length + s.serverFrameSize < 2 ^ 32) :
    doRequestFrames s streamId none = some [Frame.headers streamId true] ∧
    ∃ l, doRequestFrames s streamId (some data) =
        some (Frame.headers streamId false :: l) ∧
      (l.map framePayload).flatten = data ∧
      (∀ fr ∈ l, ∃ p e, fr = Frame.data streamId p e ∧ p.length ≤ s.serverFrameSize) ∧
      l.map frameEndStream = List.replicate (l.length - 1) false ++ [true] := by
  have hlen32 : data.length < 2 ^ 32 := by omega
  have hpos : 0 < data.length := List.length_pos.mpr hne
  obtain ⟨l, hl, hjoin, hframes, hflags⟩ :=
    sendDataFramesLoop_spec streamId s.serverFrameSize data hcs hbound
      (data.length + 1) 0 (by omega) (by omega)
  refine ⟨rfl, l, ?_, by simpa using hjoin, hframes, hflags⟩
  simp only [doRequestFrames, sendDataFrames, Nat.mod_eq_of_lt hlen32, hl]
  rfl

/-- Settings with a tiny peer frame size, for the C6 witness. -/
def witnessSettings : Settings :=
  { serverFrameSize := 2
    initialSendWindowSizeForNewStreams := 2 <<< 15 - 1
    initialReceiveWindowSizeForNewStreams := 2 <<< 15 - 1 }

/-- Witness for C6: a 3-byte body with peer frame size 2 satisfies the
hypotheses, and the fragmentation theorem applies. -/
theorem c6_doRequest_fragmentation_witness :
    ([10, 20, 30] : List Nat) ≠ [] ∧
    0 < witnessSettings.serverFrameSize ∧
    ([10, 20, 30] : List Nat).length + witnessSettings.serverFrameSize < 2 ^ 32 ∧
    (doRequestFrames witnessSettings 1 none = some [Frame.headers 1 true] ∧
      ∃ l, doRequestFrames witnessSettings 1 (some [10, 20, 30]) =
          some (Frame.headers 1 false :: l) ∧
        (l.map framePayload).flatten = [10, 20, 30] ∧
        (∀ fr ∈ l, ∃ p e, fr = Frame.data 1 p e ∧
          p.length ≤ witnessSettings.serverFrameSize) ∧
        l.map frameEndStream = List.replicate (l.length - 1) false ++ [true]) :=
  ⟨by decide, by decide, by norm_num [witnessSettings],
    c6_doRequest_fragmentation witnessSettings 1 [10, 20, 30] (by decide) (by decide)
      (by norm_num [witnessSettings])⟩

/-! ## C7: receive-side flow control (`flowControlForIncomingDataFrame`,
src/main.go) -/

/-- Go method flowControlForIncomingDataFrame from src/main.go: decrement
`remainingReceiveWindowSize` (int64) by the DATA payload length; when the
result is below the HARD-CODED threshold int64(2<<13) = 16384 ("size of one
frame" in the source — not the current peer frame size from the settings),
add `diff := int64(2<<15-1) - remainingReceiveWindowSize` = 65535 - window
back and write `WINDOW_UPDATE(0, uint32(diff))`. Whenever the branch is
taken, `diff` exceeds 65535 - 16384 > 0, so `Int.toNat` followed by
`% 2 ^ 32` is the exact uint32 conversion. Returns the new window and the
frames written. -/
def flowControlForIncomingDataFrame (remainingReceiveWindowSize : Int)
    (dataLen : Nat) : Int × List Frame :=
  let threshold : Int := 16384
  let rw1 := remainingReceiveWindowSize - dataLen
  if rw1 < threshold then
    let diff : Int := 65535 - rw1
    (rw1 + diff, [Frame.windowUpdate 0 (diff.toNat % 2 ^ 32)])
  else (rw1, [])

/-- Increment carried by a WINDOW_UPDATE frame; 0 for the other variants. -/
def frameIncrement : Frame → Nat
  | .windowUpdate _ increment => increment
  | _ => 0

/-- Iterates flowControlForIncomingDataFrame over a sequence of incoming
DATA payload lengths, recording after each frame the window value and the
frames written for it — the per-frame-boundary history of the connection
receive window. -/
def flowControlTrace (rw : Int) : List Nat → List (Int × List Frame)
  | [] => []
  | len :: rest =>
    let step := flowControlForIncomingDataFrame rw len
    step :: flowControlTrace step.1 rest

/-- The receive window after processing a whole sequence of incoming DATA
payload lengths. -/
def finalReceiveWindow (rw : Int) : List Nat → Int
  | [] => rw
  | len :: rest => finalReceiveWindow (flowControlForIncomingDataFrame rw len).1 rest

/-- Sum of all WINDOW_UPDATE increments written along a trace — what the
peer observes being granted back. -/
def traceIncrements (trace : List (Int × List Frame)) : Nat :=
  (trace.map (fun step => (step.2.map frameIncrement).sum)).sum

/-- The replenishing branch of flowControlForIncomingDataFrame. -/
lemma flowControl_update_branch (rw : Int) (len : Nat)
    (hbr : rw - (len : Int) < 16384) :
    flowControlForIncomingDataFrame rw len =
      (65535, [Frame.windowUpdate 0 ((65535 - (rw - len)).toNat % 2 ^ 32)]) := by
  simp only [flowControlForIncomingDataFrame]
  rw [if_pos hbr]
  have h : rw - (len : Int) + (65535 - (rw - len)) = 65535 := by ring
  rw [h]

/-- The quiet branch of flowControlForIncomingDataFrame. -/
lemma flowControl_no_update_branch (rw : Int) (len : Nat)
    (hbr : ¬ rw - (len : Int) < 16384) :
    flowControlForIncomingDataFrame rw len = (rw - len, []) := by
  simp only [flowControlForIncomingDataFrame]
  rw [if_neg hbr]

/-- traceIncrements distributes over cons. -/
lemma traceIncrements_cons (s : Int × List Frame) (t : List (Int × List Frame)) :
    traceIncrements (s :: t) = (s.2.map frameIncrement).sum + traceIncrements t := by
  simp [traceIncrements]

/-- C7 counterexample: the claim ties the low-water mark to the peer's
current max frame size. After the peer raises MAX_FRAME_SIZE to 65536 via a
SETTINGS frame (which handleSettingsFrame applies), a 30000-byte DATA frame
leaves the window at 35535 — below one peer max-frame-size — yet the code
writes no WINDOW_UPDATE, because its threshold is the hard-coded 16384. -/
theorem c7_threshold_not_peer_max_frame_size :
    (handleSettingsFrame initialSettings (some (2 ^ 16)) none).serverFrameSize = 2 ^ 16 ∧
    flowControlForIncomingDataFrame 65535 30000 = (35535, []) ∧
    (35535 : Int) < 2 ^ 16 := by decide

/-- Invariant and accounting for the receive-window trace, from any window
value in [16384, 65535]: every boundary window stays in that range, an
update step restores exactly 65535 with a single WINDOW_UPDATE on stream 0,
and the final window equals the start plus granted increments minus received
bytes. -/
lemma flowControlTrace_invariant (lens : List Nat) :
    ∀ rw : Int, 16384 ≤ rw → rw ≤ 65535 → (∀ len ∈ lens, len ≤ 2 ^ 24) →
    (∀ step ∈ flowControlTrace rw lens,
      16384 ≤ step.1 ∧ step.1 ≤ 65535 ∧
      (step.2 ≠ [] → step.1 = 65535 ∧ ∃ d, step.2 = [Frame.windowUpdate 0 d])) ∧
    finalReceiveWindow rw lens =
      rw + (traceIncrements (flowControlTrace rw lens) : Int) - (lens.sum : Int) := by
  induction lens with
  | nil =>
    intro rw _ _ _
    refine ⟨?_, ?_⟩
    · intro step hstep
      simp [flowControlTrace] at hstep
    · simp [finalReceiveWindow, flowControlTrace, traceIncrements]
  | cons len rest ih =>
    intro rw h1 h2 hl
    have hlen : len ≤ 2 ^ 24 := hl len (List.mem_cons_self len rest)
    have htail : ∀ x ∈ rest, x ≤ 2 ^ 24 := fun x hx => hl x (List.mem_cons_of_mem len hx)
    have htr : flowControlTrace rw (len :: rest) =
        flowControlForIncomingDataFrame rw len ::
          flowControlTrace (flowControlForIncomingDataFrame rw len).1 rest := rfl
    have hfw : finalReceiveWindow rw (len :: rest) =
        finalReceiveWindow (flowControlForIncomingDataFrame rw len).1 rest := rfl
    by_cases hbr : rw - (len : Int) < 16384
    · have hstep := flowControl_update_branch rw len hbr
      obtain ⟨hmem, hacc⟩ := ih 65535 (by omega) (by omega) htail
      refine ⟨?_, ?_⟩
      · intro step hstep1
        rw [htr, hstep] at hstep1
        rcases List.mem_cons.mp hstep1 with h | h
        · subst h
          refine ⟨?_, ?_, fun _ => ⟨rfl, ⟨_, rfl⟩⟩⟩
          · show (16384 : Int) ≤ 65535
            norm_num
          · show (65535 : Int) ≤ 65535
            norm_num
        · exact hmem step h
      · rw [hfw, hstep, htr, hstep, traceIncrements_cons]
        show finalReceiveWindow 65535 rest = _
        rw [hacc]
        simp only [List.map_cons, List.map_nil, List.sum_cons, List.sum_nil,
          frameIncrement]
        omega
    · have hstep := flowControl_no_update_branch rw len hbr
      obtain ⟨hmem, hacc⟩ := ih (rw - len) (by omega) (by omega) htail
      refine ⟨?_, ?_⟩
      · intro step hstep1
        rw [htr, hstep] at hstep1
        rcases List.mem_cons.mp hstep1 with h | h
        · subst h
          refine ⟨?_, ?_, fun hne => absurd rfl hne⟩
          · show (16384 : Int) ≤ rw - len
            omega
          · show rw - (len : Int) ≤ 65535
            omega
        · exact hmem step h
      · rw [hfw, hstep, htr, hstep, traceIncrements_cons]
        show finalReceiveWindow (rw - len) rest = _
        rw [hacc]
        simp only [List.map_nil, List.sum_nil, List.sum_cons]
        omega

/-- The final receive window never falls below the threshold when started at
or above it. -/
lemma finalReceiveWindow_lb (lens : List Nat) :
    ∀ rw : Int, 16384 ≤ rw → 16384 ≤ finalReceiveWindow rw lens := by
  induction lens with
  | nil =>
    intro rw h
    simpa [finalReceiveWindow] using h
  | cons len rest ih =>
    intro rw h
    rw [finalReceiveWindow]
    by_cases hbr : rw - (len : Int) < 16384
    · rw [flowControl_update_branch rw len hbr]
      exact ih 65535 (by omega)
    · rw [flowControl_no_update_branch rw len hbr]
      exact ih (rw - len) (by omega)

/-- C7 amended: incoming DATA frames decrement the connection receive window
by their payload length, and whenever it drops below the FIXED low-water
mark 16384 (the hard-coded default frame size, not the peer's current
MAX_FRAME_SIZE), a single WINDOW_UPDATE on stream 0 restores it to exactly
65535; every frame-boundary window lies in [16384, 65535], and the window
always equals 65535 plus the granted WINDOW_UPDATE increments minus the
bytes received, so the peer-observable window is non-negative at every
frame boundary (each boundary is the final one of the corresponding prefix
of the input). Payload lengths are bounded by 2^24, the wire limit of the
24-bit length field. -/
theorem c7_receive_window_replenishment (lens : List Nat)
    (hl : ∀ len ∈ lens, len ≤ 2 ^ 24) :
    (∀ step ∈ flowControlTrace 65535 lens,
      16384 ≤ step.1 ∧ step.1 ≤ 65535 ∧
      (step.2 ≠ [] → step.1 = 65535 ∧ ∃ d, step.2 = [Frame.windowUpdate 0 d])) ∧
    finalReceiveWindow 65535 lens =
      65535 + (traceIncrements (flowControlTrace 65535 lens) : Int) - (lens.sum : Int) ∧
    0 ≤ finalReceiveWindow 65535 lens := by
  obtain ⟨hmem, hacc⟩ := flowControlTrace_invariant lens 65535 (by omega) (by omega) hl
  have hlb := finalReceiveWindow_lb lens 65535 (by omega)
  exact ⟨hmem, hacc, by omega⟩

/-- Witness for C7 at a concrete trace: two 30000-byte DATA frames. The
first leaves the window at 35535 with no update; the second drops it to
5535, below 16384, and a WINDOW_UPDATE restores exactly 65535. -/
theorem c7_receive_window_replenishment_witness :
    (∀ len ∈ ([30000, 30000] : List Nat), len ≤ 2 ^ 24) ∧
    ((∀ step ∈ flowControlTrace 65535 [30000, 30000],
        16384 ≤ step.1 ∧ step.1 ≤ 65535 ∧
        (step.2 ≠ [] → step.1 = 65535 ∧ ∃ d, step.2 = [Frame.windowUpdate 0 d])) ∧
      finalReceiveWindow 65535 [30000, 30000] =
        65535 + (traceIncrements (flowControlTrace 65535 [30000, 30000]) : Int) -
          (([30000, 30000] : List Nat).sum : Int) ∧
      0 ≤ finalReceiveWindow 65535 [30000, 30000]) :=
  ⟨by decide, c7_receive_window_replenishment [30000, 30000] (by decide)⟩

end H2c
